import Mathlib

/-
Verification development for the pekora-rs core: the file-backed cache engine
(src/cache/file_backed.rs, src/cache/types.rs) and the keyed client pool
(src/util/set.rs).

Shallow embedding conventions:
- Rust `Option<String>` is `Option String`; `Result<T, E>` is `Except E T`.
- The filesystem is a pure map `FS : String → Option CacheFile`, with a file's
  content held as the raw string a reader would see and its modification time
  in whole epoch seconds (mirroring `duration_since(UNIX_EPOCH).as_secs()`,
  which truncates to seconds; only post-epoch mtimes are representable, which
  matches the `u64` range of `as_secs`, so that `unwrap` is total here).
- `PathBuf::join` of the cache root with the relative filename produced by
  `build_cache_filename` is modelled as string concatenation with "/".
- serde_json is abstracted as a `Codec`: `encode` may fail (to_writer),
  `decode` returns `none` on failure (from_reader).
- Fallible filesystem writes (`create_dir_all`, `OpenOptions::open`) are
  driven by a `WriteOps` oracle giving each operation's outcome.
- A Rust process abort via the `panic!` in `build_cache_filename` is the
  dedicated outcome `Run.panicked`, distinct from every returned `CacheError`.
-/

set_option autoImplicit false

namespace Pekora

/-- Structure `CacheKey` from src/cache/types.rs: optional stable name plus optional
content fingerprint. -/
structure CacheKey where
  content_key : Option String
  content_hash : Option String
deriving DecidableEq, Repr

/-- Structure `CacheLoadResult` from src/cache/types.rs. -/
structure CacheLoadResult (O : Type) where
  result : O
  cache_key : CacheKey
  cache_hit : Bool
deriving DecidableEq, Repr

/-- The `Cacheable` trait from src/cache/types.rs: key derivation, remote
fetch, and the namespace (`category_key`) for this artifact family. -/
structure Cacheable (I O E : Type) where
  get_cache_key : I → Except E CacheKey
  load : I → Except E O
  category_key : String

/-- Kinds of `std::io::Error` the engine distinguishes: `NotFound` versus
everything else (`e.kind() == ErrorKind::NotFound` is the only test made). -/
inductive IOErrorKind where
  | notFound
  | other
deriving DecidableEq, Repr

/-- Enum `CacheError<E>` from src/cache/file_backed.rs (lines 200-208).
`ioError` stands for the source's `IO` variant (the payload abstracts
`std::io::Error` to its kind); `serde` abstracts `serde_json::Error`. -/
inductive CacheError (E : Type) where
  | fetchFailed (e : E)
  | serde
  | ioError (k : IOErrorKind)
deriving DecidableEq, Repr

/-- Outcome of running an engine operation: a process abort (the `panic!` in
`build_cache_filename`), a returned error, or a returned value. -/
inductive Run (E α : Type) where
  | panicked
  | failed (e : CacheError E)
  | ok (a : α)

/-- An on-disk cache file: raw content plus modification time (epoch seconds). -/
structure CacheFile where
  content : String
  mtime : Nat
deriving DecidableEq, Repr

/-- The filesystem under the cache root: a map from path to file. -/
def FS : Type := String → Option CacheFile

/-- Model of `File::open`: succeeds with the file if present, otherwise fails with
`NotFound` (other open failures are not representable in a pure map). -/
def openFile (fs : FS) (path : String) : Except IOErrorKind CacheFile :=
  match fs path with
  | some f => Except.ok f
  | none => Except.error IOErrorKind.notFound

/-- Outcomes of the fallible filesystem operations `write_cache` performs:
`fs::create_dir_all` and `OpenOptions::open` (`none` = success). -/
structure WriteOps where
  mkdirResult : Option IOErrorKind
  openResult : Option IOErrorKind
deriving DecidableEq, Repr

/-- serde_json, abstracted: `encode` is `to_writer` (may fail), `decode` is
`from_reader` (`none` on any deserialization failure). -/
structure Codec (O : Type) where
  encode : O → Except Unit String
  decode : String → Option O

/-- Structure `FileBackedCacheable` from src/cache/file_backed.rs (lines 46-65), with
`cache_max_age` in seconds (chrono `Duration` is signed). -/
structure FileBackedCacheable (I O E : Type) where
  cache_directory : String
  cacheable : Cacheable I O E
  cache_max_age : Int

/-- Function `build_cache_filename` (file_backed.rs lines 183-198): the relative path
`{category_key}/{filename}.json`, where `filename` is derived from the key's
two optional fields; `none` is the `panic!` branch (both fields absent). -/
def build_cache_filename (category_key : String) (cache_key : CacheKey) : Option String :=
  (match cache_key.content_key with
    | none =>
      match cache_key.content_hash with
      | some hash => some ("_" ++ hash)
      | none => none
    | some content_key =>
      match cache_key.content_hash with
      | some hash => some (content_key ++ "_" ++ hash)
      | none => some (content_key ++ "_")).map
    (fun filename => category_key ++ "/" ++ filename ++ ".json")

/-- The expression `self.cache_directory.join(self.build_cache_filename(cache_key))`, the
expression shared by `get_usable_cache_file` and `write_cache`. -/
def FileBackedCacheable.cache_file_path {I O E : Type} (c : FileBackedCacheable I O E)
    (cache_key : CacheKey) : Option String :=
  (build_cache_filename c.cacheable.category_key cache_key).map
    (fun f => c.cache_directory ++ "/" ++ f)

/-- Method `get_usable_cache_file` (file_backed.rs lines 145-161): derive the path,
try to open it; `NotFound` folds into `none` (miss), other open failures are
IO errors. -/
def FileBackedCacheable.get_usable_cache_file {I O E : Type} (c : FileBackedCacheable I O E)
    (fs : FS) (cache_key : CacheKey) : Run E (Option String) :=
  match c.cache_file_path cache_key with
  | none => Run.panicked
  | some cache_path =>
    match openFile fs cache_path with
    | Except.ok _ => Run.ok (some cache_path)
    | Except.error e =>
      if e = IOErrorKind.notFound then Run.ok none
      else Run.failed (CacheError.ioError e)

/-- Method `test_cache` (file_backed.rs lines 100-143): no usable file means miss;
otherwise open it, read its modification time, treat ages strictly above
`cache_max_age` as expired (miss), and treat deserialization failure as a
miss; only a fresh, decodable file is a hit. Metadata reads on an open file
always succeed in this pure model. -/
def FileBackedCacheable.test_cache {I O E : Type} (c : FileBackedCacheable I O E)
    (codec : Codec O) (fs : FS) (now : Nat) (cache_key : CacheKey) : Run E (Option O) :=
  match c.get_usable_cache_file fs cache_key with
  | Run.panicked => Run.panicked
  | Run.failed e => Run.failed e
  | Run.ok none => Run.ok none
  | Run.ok (some usable_file) =>
    match openFile fs usable_file with
    | Except.error e => Run.failed (CacheError.ioError e)
    | Except.ok file =>
      let modified : Int := (file.mtime : Int)
      let age : Int := (now : Int) - modified
      if age > c.cache_max_age then Run.ok none
      else
        match codec.decode file.content with
        | some result => Run.ok (some result)
        | none => Run.ok none

/-- Method `write_cache` (file_backed.rs lines 163-181): derive the path, create the
category directory, open the file with truncation, serialize into it. Each
failure is returned (`IO` or `Serde`); on success the file at the path holds
the encoded value with mtime `now`. (On a failed write the real file may be
truncated or partially written; no theorem below inspects the filesystem
after a failed write.) -/
def FileBackedCacheable.write_cache {I O E : Type} (c : FileBackedCacheable I O E)
    (codec : Codec O) (w : WriteOps) (fs : FS) (now : Nat) (cache_key : CacheKey)
    (result : O) : Run E FS :=
  match c.cache_file_path cache_key with
  | none => Run.panicked
  | some cache_path =>
    match w.mkdirResult with
    | some e => Run.failed (CacheError.ioError e)
    | none =>
      match w.openResult with
      | some e => Run.failed (CacheError.ioError e)
      | none =>
        match codec.encode result with
        | Except.error _ => Run.failed CacheError.serde
        | Except.ok s =>
          Run.ok (fun p => if p = cache_path then some ⟨s, now⟩ else fs p)

/-- Method `load` (file_backed.rs lines 67-98): derive the key (failure is
`FetchFailed`), test the cache (a hit returns `cache_hit = true` with the
cached value and leaves the filesystem unchanged), otherwise fetch (failure
is `FetchFailed`), persist (failure propagates), and return
`cache_hit = false` with the updated filesystem. -/
def FileBackedCacheable.load {I O E : Type} (c : FileBackedCacheable I O E)
    (codec : Codec O) (w : WriteOps) (fs : FS) (now : Nat) (input : I) :
    Run E (CacheLoadResult O × FS) :=
  match c.cacheable.get_cache_key input with
  | Except.error e => Run.failed (CacheError.fetchFailed e)
  | Except.ok cache_key =>
    match c.test_cache codec fs now cache_key with
    | Run.panicked => Run.panicked
    | Run.failed e => Run.failed e
    | Run.ok (some result) => Run.ok (⟨result, cache_key, true⟩, fs)
    | Run.ok none =>
      match c.cacheable.load input with
      | Except.error e => Run.failed (CacheError.fetchFailed e)
      | Except.ok result =>
        match c.write_cache codec w fs now cache_key result with
        | Run.panicked => Run.panicked
        | Run.failed e => Run.failed e
        | Run.ok fs2 => Run.ok (⟨result, cache_key, false⟩, fs2)

/-- A concrete engine instance used to exercise the theorems: the constant
loader of the source's own test module (category "test"). -/
def testCacheable : Cacheable Unit Bool Unit where
  get_cache_key := fun _ => Except.ok ⟨some "alpha", some "deadbeef"⟩
  load := fun _ => Except.ok true
  category_key := "test"

/-- Engine over `testCacheable` with root "cache" and the default 7-day max
age (604800 seconds). -/
def testEngine : FileBackedCacheable Unit Bool Unit where
  cache_directory := "cache"
  cacheable := testCacheable
  cache_max_age := 604800

/-- A trivially round-tripping codec for `Bool`. -/
def boolCodec : Codec Bool where
  encode := fun b => Except.ok (if b then "true" else "false")
  decode := fun s => if s = "true" then some true else if s = "false" then some false else none

/-- Write oracle in which every filesystem operation succeeds. -/
def okWrite : WriteOps where
  mkdirResult := none
  openResult := none

/-- The empty cache directory. -/
def emptyFS : FS := fun _ => none

/-- A loader whose derived key has neither field set, driving the engine
into `build_cache_filename`'s invalid-key branch. -/
def invalidKeyCacheable : Cacheable Unit Bool Unit where
  get_cache_key := fun _ => Except.ok ⟨none, none⟩
  load := fun _ => Except.ok true
  category_key := "test"

/-- Engine over `invalidKeyCacheable`. -/
def invalidKeyEngine : FileBackedCacheable Unit Bool Unit where
  cache_directory := "cache"
  cacheable := invalidKeyCacheable
  cache_max_age := 604800

/-- Structure `ClientSet` from src/util/set.rs, as the state guarded by its mutex.
The `Arc<T>` instances produced by `client_factory` are identified by
allocation order (`nextId`): two handles are identity-equal exactly when they
carry the same id. `factory_calls` counts `client_factory` invocations per
key. `initial_data` is the immutable base configuration cloned into every
factory call. -/
structure ClientSet (K : Type) where
  clients : String → Option Nat
  nextId : Nat
  factory_calls : String → Nat
  initial_data : K

/-- Constructor `ClientSet::new`: empty map, no clients constructed yet. -/
def ClientSet.init {K : Type} (initial_data : K) : ClientSet K where
  clients := fun _ => none
  nextId := 0
  factory_calls := fun _ => 0
  initial_data := initial_data

/-- Method `ClientSet::get` (set.rs lines 20-32), the critical section under the
mutex: return the existing client for `key` if present; otherwise invoke the
factory once, insert the fresh instance, and return it. -/
def ClientSet.get {K : Type} (s : ClientSet K) (key : String) : Nat × ClientSet K :=
  match s.clients key with
  | some client => (client, s)
  | none =>
    let client := s.nextId
    (client,
      { s with
        clients := fun k => if k = key then some client else s.clients k
        nextId := s.nextId + 1
        factory_calls := fun k => if k = key then s.factory_calls k + 1 else s.factory_calls k })

/-- A sequence of `get` calls executed in order. Because every `get` runs its
whole body while holding the pool's single mutex, any concurrent execution of
`get` calls is observationally equal to running them in the order the lock
was granted, i.e. to `runGets` on some interleaving of the callers' keys. -/
def ClientSet.runGets {K : Type} (s : ClientSet K) : List String → List Nat × ClientSet K
  | [] => ([], s)
  | key :: rest =>
    let r := s.get key
    let r2 := r.2.runGets rest
    (r.1 :: r2.1, r2.2)

/-- A cache directory holding a stale but decodable artifact (mtime 0) at the
test engine's derived path. -/
def staleFS : FS :=
  fun p => if p = "cache/test/alpha_deadbeef.json" then some ⟨"true", 0⟩ else none

/-- A cache directory holding a fresh artifact whose bytes do not decode. -/
def corruptFS : FS :=
  fun p => if p = "cache/test/alpha_deadbeef.json" then some ⟨"garbage", 0⟩ else none

/-- Write oracle in which directory creation fails. -/
def badWrite : WriteOps where
  mkdirResult := some IOErrorKind.other
  openResult := none

/-- C2: filename derivation is a deterministic function of
(category_key, content_key, content_hash): both fields present gives
{root}/{category}/{key}_{hash}.json, only content_key gives
{root}/{category}/{key}_.json, only content_hash gives
{root}/{category}/_{hash}.json, and equal inputs always derive equal paths. -/
theorem cache_filename_deterministic {I O E : Type} (c : FileBackedCacheable I O E)
    (ck h : String) :
    c.cache_file_path ⟨some ck, some h⟩ =
      some (c.cache_directory ++ "/" ++
        (c.cacheable.category_key ++ "/" ++ (ck ++ "_" ++ h) ++ ".json")) ∧
    c.cache_file_path ⟨some ck, none⟩ =
      some (c.cache_directory ++ "/" ++
        (c.cacheable.category_key ++ "/" ++ (ck ++ "_") ++ ".json")) ∧
    c.cache_file_path ⟨none, some h⟩ =
      some (c.cache_directory ++ "/" ++
        (c.cacheable.category_key ++ "/" ++ ("_" ++ h) ++ ".json")) ∧
    ∀ k₁ k₂ : CacheKey, k₁ = k₂ → c.cache_file_path k₁ = c.cache_file_path k₂ := by
  refine ⟨rfl, rfl, rfl, ?_⟩
  intro k₁ k₂ hk
  rw [hk]

/-- Witness for C2 at category "test", key alpha, hash deadbeef. -/
theorem cache_filename_deterministic_witness :
    testEngine.cache_file_path ⟨some "alpha", some "deadbeef"⟩ =
      some "cache/test/alpha_deadbeef.json" ∧
    testEngine.cache_file_path ⟨some "alpha", none⟩ = some "cache/test/alpha_.json" ∧
    testEngine.cache_file_path ⟨none, some "deadbeef"⟩ = some "cache/test/_deadbeef.json" ∧
    testEngine.cache_file_path ⟨some "alpha", some "deadbeef"⟩ =
      testEngine.cache_file_path ⟨some "alpha", some "deadbeef"⟩ := by
  have h := cache_filename_deterministic testEngine "alpha" "deadbeef"
  refine ⟨?_, ?_, ?_, h.2.2.2 _ _ rfl⟩
  · have := h.1
    simpa using this
  · have := h.2.1
    simpa using this
  · have := h.2.2.1
    simpa using this

/-- C1: the code aborts instead of returning an error. With a derived key
whose fields are both absent, `build_cache_filename` takes its `panic!`
branch, so the whole `load` call is a process abort (`Run.panicked`), not a
returned `InvalidKey` error — indeed `CacheError` has no such variant. -/
theorem invalid_key_panics_load :
    build_cache_filename "test" ⟨none, none⟩ = none ∧
    invalidKeyEngine.load boolCodec okWrite emptyFS 0 () = Run.panicked :=
  ⟨rfl, rfl⟩

/-- Helper: with no file at the derived path, `get_usable_cache_file` answers
a miss (`none`), not an error. -/
theorem get_usable_of_absent {I O E : Type} (c : FileBackedCacheable I O E)
    (fs : FS) (key : CacheKey) (path : String)
    (hpath : c.cache_file_path key = some path)
    (hmiss : fs path = none) :
    c.get_usable_cache_file fs key = Run.ok none := by
  simp [FileBackedCacheable.get_usable_cache_file, hpath, openFile, hmiss]

/-- Helper: with no file at the derived path and a successful fetch and
persist, `load` returns `cache_hit = false` and writes the encoded value. -/
theorem load_of_absent {I O E : Type} (c : FileBackedCacheable I O E)
    (codec : Codec O) (w : WriteOps) (input : I) (key : CacheKey) (path : String)
    (v : O) (s : String) (now : Nat) (fs : FS)
    (hkey : c.cacheable.get_cache_key input = Except.ok key)
    (hpath : c.cache_file_path key = some path)
    (hmiss : fs path = none)
    (hload : c.cacheable.load input = Except.ok v)
    (henc : codec.encode v = Except.ok s)
    (hmk : w.mkdirResult = none) (hop : w.openResult = none) :
    c.load codec w fs now input =
      Run.ok (⟨v, key, false⟩, fun p => if p = path then some ⟨s, now⟩ else fs p) := by
  have htest : c.test_cache codec fs now key = Run.ok none := by
    simp [FileBackedCacheable.test_cache, get_usable_of_absent c fs key path hpath hmiss]
  simp [FileBackedCacheable.load, hkey, htest, hload,
    FileBackedCacheable.write_cache, hpath, hmk, hop, henc]

/-- C9: a missing file at the derived path is folded into the cache-miss
path: `get_usable_cache_file` answers `none` rather than an IO error, and the
whole `load` proceeds to fetch and returns `cache_hit = false`. -/
theorem missing_file_is_miss {I O E : Type} (c : FileBackedCacheable I O E)
    (codec : Codec O) (w : WriteOps) (input : I) (key : CacheKey) (path : String)
    (v : O) (s : String) (now : Nat) (fs : FS)
    (hkey : c.cacheable.get_cache_key input = Except.ok key)
    (hpath : c.cache_file_path key = some path)
    (hmiss : fs path = none)
    (hload : c.cacheable.load input = Except.ok v)
    (henc : codec.encode v = Except.ok s)
    (hmk : w.mkdirResult = none) (hop : w.openResult = none) :
    c.get_usable_cache_file fs key = Run.ok none ∧
    c.load codec w fs now input =
      Run.ok (⟨v, key, false⟩, fun p => if p = path then some ⟨s, now⟩ else fs p) :=
  ⟨get_usable_of_absent c fs key path hpath hmiss,
   load_of_absent c codec w input key path v s now fs hkey hpath hmiss hload henc hmk hop⟩

/-- Witness for C9: the test engine over an empty cache directory. -/
theorem missing_file_is_miss_witness :
    testEngine.get_usable_cache_file emptyFS ⟨some "alpha", some "deadbeef"⟩ = Run.ok none ∧
    testEngine.load boolCodec okWrite emptyFS 3 () =
      Run.ok (⟨true, ⟨some "alpha", some "deadbeef"⟩, false⟩,
        fun p => if p = "cache/test/alpha_deadbeef.json" then some ⟨"true", 3⟩
                 else emptyFS p) :=
  missing_file_is_miss testEngine boolCodec okWrite () ⟨some "alpha", some "deadbeef"⟩
    "cache/test/alpha_deadbeef.json" true "true" 3 emptyFS rfl rfl rfl rfl rfl rfl rfl

/-- C4: when the file at the derived path exists, an age strictly above
`cache_max_age` makes `load` take the miss path and invoke the Loadable's
fetch even though the contents would still decode, while an age not above
`cache_max_age` is not treated as stale: the decodable file is returned as a
hit. -/
theorem stale_is_miss_fresh_is_hit {I O E : Type} (c : FileBackedCacheable I O E)
    (codec : Codec O) (w : WriteOps) (input : I) (key : CacheKey) (path : String)
    (file : CacheFile) (v : O) (now : Nat) (fs : FS)
    (hkey : c.cacheable.get_cache_key input = Except.ok key)
    (hpath : c.cache_file_path key = some path)
    (hfile : fs path = some file)
    (hdec : codec.decode file.content = some v) :
    ((now : Int) - (file.mtime : Int) > c.cache_max_age →
      ∀ v₂ s₂, c.cacheable.load input = Except.ok v₂ → codec.encode v₂ = Except.ok s₂ →
        w.mkdirResult = none → w.openResult = none →
        c.load codec w fs now input =
          Run.ok (⟨v₂, key, false⟩, fun p => if p = path then some ⟨s₂, now⟩ else fs p)) ∧
    (¬ ((now : Int) - (file.mtime : Int) > c.cache_max_age) →
      c.load codec w fs now input = Run.ok (⟨v, key, true⟩, fs)) := by
  have husable : c.get_usable_cache_file fs key = Run.ok (some path) := by
    simp [FileBackedCacheable.get_usable_cache_file, hpath, openFile, hfile]
  constructor
  · intro hstale v₂ s₂ hload henc hmk hop
    have htest : c.test_cache codec fs now key = Run.ok none := by
      simp [FileBackedCacheable.test_cache, husable, openFile, hfile, hstale]
    simp [FileBackedCacheable.load, hkey, htest, hload,
      FileBackedCacheable.write_cache, hpath, hmk, hop, henc]
  · intro hfresh
    have htest : c.test_cache codec fs now key = Run.ok (some v) := by
      simp [FileBackedCacheable.test_cache, husable, openFile, hfile, hfresh, hdec]
    simp [FileBackedCacheable.load, hkey, htest]

/-- Witness for C4: the stale artifact (mtime 0) is refetched at now=700000
(beyond the 7-day max age) and returned as a hit at now=1000. -/
theorem stale_is_miss_fresh_is_hit_witness :
    (testEngine.load boolCodec okWrite staleFS 700000 () =
      Run.ok (⟨true, ⟨some "alpha", some "deadbeef"⟩, false⟩,
        fun p => if p = "cache/test/alpha_deadbeef.json" then some ⟨"true", 700000⟩
                 else staleFS p)) ∧
    (testEngine.load boolCodec okWrite staleFS 1000 () =
      Run.ok (⟨true, ⟨some "alpha", some "deadbeef"⟩, true⟩, staleFS)) := by
  constructor
  · exact (stale_is_miss_fresh_is_hit testEngine boolCodec okWrite ()
      ⟨some "alpha", some "deadbeef"⟩ "cache/test/alpha_deadbeef.json" ⟨"true", 0⟩
      true 700000 staleFS rfl rfl rfl rfl).1 (by decide) true "true" rfl rfl rfl rfl
  · exact (stale_is_miss_fresh_is_hit testEngine boolCodec okWrite ()
      ⟨some "alpha", some "deadbeef"⟩ "cache/test/alpha_deadbeef.json" ⟨"true", 0⟩
      true 1000 staleFS rfl rfl rfl rfl).2 (by decide)

/-- C5: a fresh cache file whose contents fail to decode is never surfaced as
an error: `load` proceeds as a miss, returns `cache_hit = false` with the
freshly fetched value, and the corrupted file is overwritten with the encoded
fresh artifact. -/
theorem corrupted_cache_self_heals {I O E : Type} (c : FileBackedCacheable I O E)
    (codec : Codec O) (w : WriteOps) (input : I) (key : CacheKey) (path : String)
    (file : CacheFile) (v : O) (s : String) (now : Nat) (fs : FS)
    (hkey : c.cacheable.get_cache_key input = Except.ok key)
    (hpath : c.cache_file_path key = some path)
    (hfile : fs path = some file)
    (hfresh : ¬ ((now : Int) - (file.mtime : Int) > c.cache_max_age))
    (hcorrupt : codec.decode file.content = none)
    (hload : c.cacheable.load input = Except.ok v)
    (henc : codec.encode v = Except.ok s)
    (hmk : w.mkdirResult = none) (hop : w.openResult = none) :
    c.load codec w fs now input =
      Run.ok (⟨v, key, false⟩, fun p => if p = path then some ⟨s, now⟩ else fs p) ∧
    (fun p => if p = path then some ⟨s, now⟩ else fs p) path = some (⟨s, now⟩ : CacheFile) := by
  have husable : c.get_usable_cache_file fs key = Run.ok (some path) := by
    simp [FileBackedCacheable.get_usable_cache_file, hpath, openFile, hfile]
  have htest : c.test_cache codec fs now key = Run.ok none := by
    simp [FileBackedCacheable.test_cache, husable, openFile, hfile, hfresh, hcorrupt]
  constructor
  · simp [FileBackedCacheable.load, hkey, htest, hload,
      FileBackedCacheable.write_cache, hpath, hmk, hop, henc]
  · simp

/-- Witness for C5: non-decodable bytes at the resolved path self-heal. -/
theorem corrupted_cache_self_heals_witness :
    testEngine.load boolCodec okWrite corruptFS 1000 () =
      Run.ok (⟨true, ⟨some "alpha", some "deadbeef"⟩, false⟩,
        fun p => if p = "cache/test/alpha_deadbeef.json" then some ⟨"true", 1000⟩
                 else corruptFS p) ∧
    (fun p => if p = "cache/test/alpha_deadbeef.json" then some ⟨"true", 1000⟩
              else corruptFS p) "cache/test/alpha_deadbeef.json" =
      some (⟨"true", 1000⟩ : CacheFile) :=
  corrupted_cache_self_heals testEngine boolCodec okWrite ()
    ⟨some "alpha", some "deadbeef"⟩ "cache/test/alpha_deadbeef.json" ⟨"garbage", 0⟩
    true "true" 1000 corruptFS rfl rfl rfl (by decide) rfl rfl rfl rfl rfl

/-- C8: on the miss path with a successful fetch, any persist failure —
directory creation, file open, or serialization — fails the whole `load`
call with that error, so the caller never receives the fetched value. -/
theorem persist_failure_is_fatal {I O E : Type} (c : FileBackedCacheable I O E)
    (codec : Codec O) (w : WriteOps) (input : I) (key : CacheKey) (path : String)
    (v : O) (now : Nat) (fs : FS)
    (hkey : c.cacheable.get_cache_key input = Except.ok key)
    (hpath : c.cache_file_path key = some path)
    (hmiss : c.test_cache codec fs now key = Run.ok none)
    (hload : c.cacheable.load input = Except.ok v) :
    (∀ e, c.write_cache codec w fs now key v = Run.failed e →
      c.load codec w fs now input = Run.failed e) ∧
    (∀ k, w.mkdirResult = some k →
      c.write_cache codec w fs now key v = Run.failed (CacheError.ioError k)) ∧
    (∀ k, w.mkdirResult = none → w.openResult = some k →
      c.write_cache codec w fs now key v = Run.failed (CacheError.ioError k)) ∧
    (w.mkdirResult = none → w.openResult = none → codec.encode v = Except.error () →
      c.write_cache codec w fs now key v = Run.failed CacheError.serde) := by
  refine ⟨?_, ?_, ?_, ?_⟩
  · intro e hw
    simp [FileBackedCacheable.load, hkey, hmiss, hload, hw]
  · intro k hmk
    simp [FileBackedCacheable.write_cache, hpath, hmk]
  · intro k hmk hop
    simp [FileBackedCacheable.write_cache, hpath, hmk, hop]
  · intro hmk hop henc
    simp [FileBackedCacheable.write_cache, hpath, hmk, hop, henc]

/-- Witness for C8: with directory creation failing, the whole call fails
with that IO error even though the fetch succeeded. -/
theorem persist_failure_is_fatal_witness :
    testEngine.load boolCodec badWrite emptyFS 0 () =
      Run.failed (CacheError.ioError IOErrorKind.other) := by
  have h := persist_failure_is_fatal testEngine boolCodec badWrite ()
    ⟨some "alpha", some "deadbeef"⟩ "cache/test/alpha_deadbeef.json" true 0 emptyFS
    rfl rfl rfl rfl
  exact h.1 _ (h.2.1 IOErrorKind.other rfl)

/-- C3: with a Loadable returning a fixed value and a fixed valid key for a
fixed input, loading twice (the second within `cache_max_age` of the first)
yields `cache_hit = false` then `cache_hit = true`, both calls returning the
same result value. -/
theorem idempotent_hit {I O E : Type} (c : FileBackedCacheable I O E)
    (codec : Codec O) (w : WriteOps) (input : I) (key : CacheKey) (path : String)
    (v : O) (s : String) (fs : FS) (now₁ now₂ : Nat)
    (hkey : c.cacheable.get_cache_key input = Except.ok key)
    (hpath : c.cache_file_path key = some path)
    (hmiss : fs path = none)
    (hload : c.cacheable.load input = Except.ok v)
    (henc : codec.encode v = Except.ok s)
    (hdec : codec.decode s = some v)
    (hmk : w.mkdirResult = none) (hop : w.openResult = none)
    (hage : (now₂ : Int) - (now₁ : Int) ≤ c.cache_max_age) :
    ∃ fs₂ : FS,
      c.load codec w fs now₁ input = Run.ok (⟨v, key, false⟩, fs₂) ∧
      c.load codec w fs₂ now₂ input = Run.ok (⟨v, key, true⟩, fs₂) := by
  refine ⟨fun p => if p = path then some ⟨s, now₁⟩ else fs p, ?_, ?_⟩
  · exact load_of_absent c codec w input key path v s now₁ fs
      hkey hpath hmiss hload henc hmk hop
  · have hfile : (fun p => if p = path then some ⟨s, now₁⟩ else fs p) path =
        some (⟨s, now₁⟩ : CacheFile) := by simp
    have hfresh : ¬ ((now₂ : Int) - ((⟨s, now₁⟩ : CacheFile).mtime : Int) > c.cache_max_age) := by
      simpa using not_lt.mpr hage
    have husable : c.get_usable_cache_file (fun p => if p = path then some ⟨s, now₁⟩ else fs p)
        key = Run.ok (some path) := by
      simp [FileBackedCacheable.get_usable_cache_file, hpath, openFile]
    have htest : c.test_cache codec (fun p => if p = path then some ⟨s, now₁⟩ else fs p)
        now₂ key = Run.ok (some v) := by
      simp [FileBackedCacheable.test_cache, husable, openFile, hfresh, hdec]
    simp [FileBackedCacheable.load, hkey, htest]

/-- Witness for C3: two successive loads of the test engine at times 100 and
200 over an initially empty cache. -/
theorem idempotent_hit_witness :
    ∃ fs₂ : FS,
      testEngine.load boolCodec okWrite emptyFS 100 () =
        Run.ok (⟨true, ⟨some "alpha", some "deadbeef"⟩, false⟩, fs₂) ∧
      testEngine.load boolCodec okWrite fs₂ 200 () =
        Run.ok (⟨true, ⟨some "alpha", some "deadbeef"⟩, true⟩, fs₂) :=
  idempotent_hit testEngine boolCodec okWrite () ⟨some "alpha", some "deadbeef"⟩
    "cache/test/alpha_deadbeef.json" true "true" emptyFS 100 200
    rfl rfl rfl rfl rfl rfl rfl rfl (by decide)

/-- Helper: a key with at least one field present derives a path; the
invalid-key branch is not taken. -/
theorem cache_file_path_of_valid {I O E : Type} (c : FileBackedCacheable I O E)
    (key : CacheKey)
    (hvalid : key.content_key.isSome = true ∨ key.content_hash.isSome = true) :
    ∃ path, c.cache_file_path key = some path := by
  rcases key with ⟨ck, ch⟩
  rcases ck with _ | a <;> rcases ch with _ | b <;>
    simp_all [FileBackedCacheable.cache_file_path, build_cache_filename]

/-- Helper: once the path derives, `test_cache` cannot abort. -/
theorem test_cache_ne_panicked {I O E : Type} (c : FileBackedCacheable I O E)
    (codec : Codec O) (fs : FS) (now : Nat) (key : CacheKey) (path : String)
    (hpath : c.cache_file_path key = some path) :
    c.test_cache codec fs now key ≠ Run.panicked := by
  unfold FileBackedCacheable.test_cache FileBackedCacheable.get_usable_cache_file
  rw [hpath]
  rcases hof : openFile fs path with e | f
  · by_cases he : e = IOErrorKind.notFound <;> simp [hof, he]
  · simp only [hof]
    by_cases hage : ((now : Int) - (f.mtime : Int) > c.cache_max_age)
    · simp [hage]
    · rcases hdec : codec.decode f.content with _ | v <;> simp [hage, hdec]

/-- Helper: once the path derives, `write_cache` cannot abort. -/
theorem write_cache_ne_panicked {I O E : Type} (c : FileBackedCacheable I O E)
    (codec : Codec O) (w : WriteOps) (fs : FS) (now : Nat) (key : CacheKey)
    (v : O) (path : String)
    (hpath : c.cache_file_path key = some path) :
    c.write_cache codec w fs now key v ≠ Run.panicked := by
  unfold FileBackedCacheable.write_cache
  rw [hpath]
  rcases hmk : w.mkdirResult with _ | e
  · rcases hop : w.openResult with _ | e₂
    · rcases henc : codec.encode v with u | s <;> simp [hmk, hop, henc]
    · simp [hmk, hop]
  · simp [hmk]

/-- C10: with a derived key having at least one field present, the filename
derivation inside `load` is total — the `panic!` branch of
`build_cache_filename` is unreachable on both the hit and miss paths, so
`load` never aborts. -/
theorem valid_key_never_panics {I O E : Type} (c : FileBackedCacheable I O E)
    (codec : Codec O) (w : WriteOps) (input : I) (key : CacheKey)
    (hkey : c.cacheable.get_cache_key input = Except.ok key)
    (hvalid : key.content_key.isSome = true ∨ key.content_hash.isSome = true) :
    (∃ path, c.cache_file_path key = some path) ∧
    ∀ fs now, c.load codec w fs now input ≠ Run.panicked := by
  obtain ⟨path, hpath⟩ := cache_file_path_of_valid c key hvalid
  refine ⟨⟨path, hpath⟩, ?_⟩
  intro fs now h
  unfold FileBackedCacheable.load at h
  split at h
  · simp at h
  next k hk =>
    have hkk : key = k := by
      rw [hkey] at hk
      exact (Except.ok.injEq _ _).mp hk
    subst hkk
    split at h
    next htc => exact test_cache_ne_panicked c codec fs now key path hpath htc
    · simp at h
    · simp at h
    · split at h
      · simp at h
      · split at h
        next hw => exact write_cache_ne_panicked c codec w fs now key _ path hpath hw
        · simp at h
        · simp at h

/-- Witness for C10: the test engine's key has a content key, and its load
does not abort. -/
theorem valid_key_never_panics_witness :
    (∃ path, testEngine.cache_file_path ⟨some "alpha", some "deadbeef"⟩ = some path) ∧
    testEngine.load boolCodec okWrite emptyFS 5 () ≠ Run.panicked := by
  have h := valid_key_never_panics testEngine boolCodec okWrite ()
    ⟨some "alpha", some "deadbeef"⟩ rfl (Or.inl rfl)
  exact ⟨h.1, h.2 emptyFS 5⟩

/-- Helper: `get` on an already-constructed key returns the recorded instance
and leaves the pool untouched. -/
theorem ClientSet.get_of_some {K : Type} (s : ClientSet K) (k : String) (c : Nat)
    (h : s.clients k = some c) : s.get k = (c, s) := by
  unfold ClientSet.get
  rw [h]

/-- Helper: no `get` ever removes or replaces an existing entry. -/
theorem ClientSet.get_preserves_clients {K : Type} (s : ClientSet K) (key k : String)
    (c : Nat) (h : s.clients k = some c) : ((s.get key).2).clients k = some c := by
  unfold ClientSet.get
  rcases hg : s.clients key with _ | c₂
  · by_cases hk : k = key
    · subst hk
      rw [h] at hg
      cases hg
    · simp [hk, h]
  · simp [h]

/-- Helper: unfolding one step of `runGets`. -/
theorem ClientSet.runGets_cons {K : Type} (s : ClientSet K) (key : String)
    (ks : List String) :
    s.runGets (key :: ks) =
      ((s.get key).1 :: ((s.get key).2.runGets ks).1, ((s.get key).2.runGets ks).2) := rfl

/-- Helper: a run of `get` calls invokes the factory for `k` exactly once
when `k` is requested and not yet constructed, and never otherwise. -/
theorem ClientSet.runGets_factory_calls {K : Type} (s : ClientSet K) (ks : List String)
    (k : String) :
    ((s.runGets ks).2).factory_calls k =
      if s.clients k = none ∧ k ∈ ks then s.factory_calls k + 1
      else s.factory_calls k := by
  induction ks generalizing s with
  | nil => simp [ClientSet.runGets]
  | cons key rest ih =>
    show (((s.get key).2).runGets rest).2.factory_calls k = _
    rw [ih]
    rcases hg : s.clients key with _ | c
    · by_cases hk : k = key
      · subst hk
        simp [ClientSet.get, hg]
      · simp [ClientSet.get, hg, hk, List.mem_cons]
    · have hgets : s.get key = (c, s) := ClientSet.get_of_some s key c hg
      rw [hgets]
      by_cases hk : k = key
      · subst hk
        simp [hg]
      · simp [hk, List.mem_cons]

/-- Helper: once `k` maps to instance `c`, any number of further `get k`
calls all return `c` and leave the pool unchanged. -/
theorem ClientSet.runGets_replicate_of_some {K : Type} (s : ClientSet K) (k : String)
    (c : Nat) (h : s.clients k = some c) (n : Nat) :
    s.runGets (List.replicate n k) = (List.replicate n c, s) := by
  induction n with
  | zero => simp [ClientSet.runGets]
  | succ m ih =>
    rw [List.replicate_succ, List.replicate_succ]
    show (let r := s.get k; let r₂ := r.2.runGets (List.replicate m k); (r.1 :: r₂.1, r₂.2)) = _
    rw [ClientSet.get_of_some s k c h]
    simp [ih]

/-- C6: over any sequence of `get` calls from a fresh pool, the factory runs
exactly once per distinct requested key; a `get` of an already-constructed
key returns the identical instance without modifying the pool; and no `get`
ever removes or replaces an entry. -/
theorem client_identity_and_single_construction {K : Type} (d : K) (ks : List String)
    (k : String) :
    (((ClientSet.init d).runGets ks).2.factory_calls k = if k ∈ ks then 1 else 0) ∧
    (∀ (s : ClientSet K) (c : Nat), s.clients k = some c → s.get k = (c, s)) ∧
    (∀ (s : ClientSet K) (key : String) (c : Nat), s.clients k = some c →
      ((s.get key).2).clients k = some c) := by
  refine ⟨?_, fun s c h => ClientSet.get_of_some s k c h,
    fun s key c h => ClientSet.get_preserves_clients s key k c h⟩
  rw [ClientSet.runGets_factory_calls]
  simp [ClientSet.init]

/-- Witness for C6: three calls over keys r1, r1, r2 build r1 exactly once,
and a further `get r1` returns that same instance with the pool unchanged. -/
theorem client_identity_and_single_construction_witness :
    (((ClientSet.init (0 : Nat)).runGets ["r1", "r1", "r2"]).2.factory_calls "r1" = 1) ∧
    (((ClientSet.init (0 : Nat)).runGets ["r1", "r1", "r2"]).2.get "r1" =
      (0, ((ClientSet.init (0 : Nat)).runGets ["r1", "r1", "r2"]).2)) := by
  have h := client_identity_and_single_construction (0 : Nat) ["r1", "r1", "r2"] "r1"
  constructor
  · have h₁ := h.1
    rwa [if_pos (by decide)] at h₁
  · exact h.2.1 _ 0 rfl

/-- C7: any serialization of N ≥ 1 concurrent `get` calls for one key — the
pool's single mutex forces every concurrent execution into such an order —
invokes the factory exactly once, and all N callers receive the same
instance. -/
theorem concurrent_gets_construct_once {K : Type} (d : K) (n : Nat) (k : String)
    (hn : 1 ≤ n) :
    ∃ c, ((ClientSet.init d).runGets (List.replicate n k)).1 = List.replicate n c ∧
      ((ClientSet.init d).runGets (List.replicate n k)).2.factory_calls k = 1 := by
  obtain ⟨m, rfl⟩ : ∃ m, n = m + 1 := ⟨n - 1, (Nat.succ_pred_eq_of_pos hn).symm⟩
  have h₂ : (((ClientSet.init d).get k).2).clients k = some 0 := by
    simp [ClientSet.get, ClientSet.init]
  have hrep := ClientSet.runGets_replicate_of_some _ k 0 h₂ m
  have h₁ : ((ClientSet.init d).get k).1 = 0 := by
    simp [ClientSet.get, ClientSet.init]
  have h₃ : (((ClientSet.init d).get k).2).factory_calls k = 1 := by
    simp [ClientSet.get, ClientSet.init]
  refine ⟨0, ?_, ?_⟩
  · rw [List.replicate_succ, ClientSet.runGets_cons, hrep, List.replicate_succ]
    simp [h₁]
  · rw [List.replicate_succ, ClientSet.runGets_cons, hrep]
    simpa using h₃

/-- Witness for C7: five gets of one key from a fresh pool. -/
theorem concurrent_gets_construct_once_witness :
    ∃ c, ((ClientSet.init (0 : Nat)).runGets (List.replicate 5 "same-key")).1 =
        List.replicate 5 c ∧
      ((ClientSet.init (0 : Nat)).runGets
        (List.replicate 5 "same-key")).2.factory_calls "same-key" = 1 :=
  concurrent_gets_construct_once 0 5 "same-key" (by decide)

end Pekora
